import Mathlib

/-!
Shallow embedding of the Kelly motor controller protocol driver
(frame codec in protocol.py, retry policy in communications.py,
calibration decoder in pykellymotion/parser.py).

Bytes are modelled as natural numbers; Python `bytes` values become
`List Nat` whose members are < 256 where that matters.  Python code that
can raise an exception (raw indexing) is modelled in `Option`: a `none`
result stands for an escaped exception, `some x` for a normal return of
`x`.  Python slices never raise and are modelled by `drop`/`take`.
-/

namespace PyKelly

/-- Checksum for the Kelly protocol: sum of all bytes truncated to 8 bits
(`sum(data) & 0xFF` in protocol.py, written here as `% 256`, which is the
same operation on nonnegative integers). -/
def calculate_checksum (data : List Nat) : Nat :=
  data.sum % 256

/-- Frame builder from protocol.py: `[CMD][LENGTH][DATA...][CHECKSUM]`,
where the checksum byte equals `cmd` when the payload is empty and the
wraparound byte sum of the header and payload otherwise. -/
def build_packet (cmd : Nat) (data : List Nat) : List Nat :=
  let length := data.length
  let packet := [cmd, length] ++ data
  let checksum := if length = 0 then cmd else calculate_checksum packet
  packet ++ [checksum]

/-- Frame validator from protocol.py.  Raw indexing (`packet[0]`,
`packet[1]`, `packet[length + 2]`) is modelled in `Option`; every index
is guarded in the code, and `validate_response_isSome` below proves the
guards suffice. -/
def validate_response (packet : List Nat) (expected_cmd : Option Nat) : Option Bool :=
  if packet.length < 3 then some false
  else
    match packet[0]?, packet[1]? with
    | some cmd, some length =>
      if packet.length < length + 3 then some false
      else
        let expected_checksum :=
          if length = 0 then cmd else calculate_checksum (packet.take (length + 2))
        match packet[length + 2]? with
        | some actual_checksum =>
          if actual_checksum ≠ expected_checksum then some false
          else
            match expected_cmd with
            | some e => if cmd ≠ e then some false else some true
            | none => some true
        | none => none
    | _, _ => none

/-- Frame parser from protocol.py: `(None, None)` on an invalid frame is
modelled as `none`, a successful parse as `some (cmd, data)`. -/
def parse_response (packet : List Nat) : Option (Nat × List Nat) :=
  match validate_response packet none with
  | some true =>
    let cmd := packet.getD 0 0
    let length := packet.getD 1 0
    let data := if length > 0 then (packet.drop 2).take length else []
    some (cmd, data)
  | _ => none

lemma getElem?_eq_some_getD {l : List Nat} {n : Nat} (h : n < l.length) :
    l[n]? = some (l.getD n 0) := by
  rw [List.getD_eq_getElem?_getD, List.getElem?_eq_getElem h]
  rfl

lemma checksum_arith (c n : Nat) (p : List Nat) :
    calculate_checksum ([c, n] ++ p) = (c + n + p.sum) % 256 := by
  simp [calculate_checksum, Nat.add_assoc]

lemma build_packet_eq (c : Nat) (p : List Nat) :
    build_packet c p =
      [c, p.length] ++ p ++
        [if p.length = 0 then c else calculate_checksum ([c, p.length] ++ p)] := by
  simp [build_packet]

lemma frame_eval (c k : Nat) (p : List Nat) (ec : Option Nat) :
    validate_response ([c, p.length] ++ p ++ [k]) ec =
      some ((k == (if p.length = 0 then c else calculate_checksum ([c, p.length] ++ p))) &&
            ec.elim true (fun e => c == e)) := by
  have hlen : ([c, p.length] ++ p ++ [k]).length = p.length + 3 := by simp
  have h3 : ¬ (p.length + 3 < 3) := by omega
  have h0 : ([c, p.length] ++ p ++ [k])[0]? = some c := by simp
  have h1 : ([c, p.length] ++ p ++ [k])[1]? = some p.length := by simp
  have hl2 : ([c, p.length] ++ p).length = p.length + 2 := by simp
  have hck : ([c, p.length] ++ p ++ [k])[p.length + 2]? = some k := by
    rw [List.getElem?_append, hl2]
    simp
  have htake : ([c, p.length] ++ p ++ [k]).take (p.length + 2) = [c, p.length] ++ p := by
    rw [← hl2]
    exact List.take_left _ _
  unfold validate_response
  rw [hlen, if_neg h3, h0, h1]
  dsimp only
  rw [if_neg (lt_irrefl _), htake, hck]
  dsimp only
  have key : ∀ (x : Nat), (if k = x then some true else some false) = some (k == x) := by
    intro x
    by_cases h : k = x <;> simp [h]
  rcases ec with _ | e
  · simpa using key _
  · by_cases hc : c = e <;> simp [hc, key]

/-- C1: round-trip — for every command byte `C` and payload `P` with
`0 ≤ |P| ≤ 16`, building a frame from `(C, P)` and validating the result
with expected command `C` succeeds:
`validate_response (build_packet C P) C = true`. -/
theorem roundtrip_validate (C : Nat) (P : List Nat) (_hC : C < 256)
    (_hP : ∀ b ∈ P, b < 256) (_hlen : P.length ≤ 16) :
    validate_response (build_packet C P) (some C) = some true := by
  rw [build_packet_eq, frame_eval]
  simp

/-- Witness for C1 at `C = 0x4C`, `P = [1, 2, 3]`. -/
theorem roundtrip_validate_witness :
    0x4C < 256 ∧ (∀ b ∈ [1, 2, 3], b < 256) ∧ [1, 2, 3].length ≤ 16 ∧
      validate_response (build_packet 0x4C [1, 2, 3]) (some 0x4C) = some true :=
  ⟨by decide, by decide, by decide,
    roundtrip_validate 0x4C [1, 2, 3] (by decide) (by decide) (by decide)⟩

/-- C2: checksum rule of the frame builder — `build_packet C P` serializes
as `[C][|P|][P...][checksum]`, where the checksum byte equals `C` when the
payload is empty and the 8-bit wraparound sum `(C + |P| + sum P) % 256`
otherwise; in particular `build_packet 0x4C [1,2,3]` ends in
`(0x4C+3+1+2+3) % 256` and `build_packet 0x3A []` is `[0x3A, 0, 0x3A]`. -/
theorem build_packet_checksum_rule (C : Nat) (P : List Nat) (_hC : C < 256)
    (_hP : ∀ b ∈ P, b < 256) (_hlen : P.length ≤ 255) :
    build_packet C P =
      [C, P.length] ++ P ++ [if P.length = 0 then C else (C + P.length + P.sum) % 256] ∧
    build_packet 0x4C [1, 2, 3] = [0x4C, 3, 1, 2, 3, (0x4C + 3 + 1 + 2 + 3) % 256] ∧
    build_packet 0x3A [] = [0x3A, 0x00, 0x3A] := by
  refine ⟨?_, by decide, by decide⟩
  rw [build_packet_eq, checksum_arith]

/-- Witness for C2 at `C = 0x4C`, `P = [1, 2, 3]`. -/
theorem build_packet_checksum_rule_witness :
    build_packet 0x4C [1, 2, 3] =
      [0x4C, ([1, 2, 3] : List Nat).length] ++ [1, 2, 3] ++
        [if ([1, 2, 3] : List Nat).length = 0 then 0x4C
          else (0x4C + ([1, 2, 3] : List Nat).length + ([1, 2, 3] : List Nat).sum) % 256] :=
  (build_packet_checksum_rule 0x4C [1, 2, 3] (by decide) (by decide) (by decide)).1

/-- Declarative reading of the validator's four checks, in their order in
the code: (a) at least 3 bytes; (b) length covers the declared payload;
(c) the recomputed checksum matches the trailing checksum byte at index
`declared_length + 2`; (d) the leading byte matches the expected command
when one is supplied. -/
def validSpec (p : List Nat) (ec : Option Nat) : Prop :=
  3 ≤ p.length ∧
  p.getD 1 0 + 3 ≤ p.length ∧
  p.getD (p.getD 1 0 + 2) 0 =
    (if p.getD 1 0 = 0 then p.getD 0 0 else calculate_checksum (p.take (p.getD 1 0 + 2))) ∧
  ∀ e, ec = some e → p.getD 0 0 = e

/-- C3: `validate_response` never lets an exception escape (the result is
always a boolean, `isSome`), and it returns `true` exactly when the four
ordered conditions of `validSpec` all hold — so any violated condition
makes it return `false`. -/
theorem validate_response_characterization (p : List Nat) (ec : Option Nat) :
    (validate_response p ec).isSome ∧
      (validate_response p ec = some true ↔ validSpec p ec) := by
  by_cases h3 : p.length < 3
  · refine ⟨by simp [validate_response, h3], ?_⟩
    simp only [validate_response, h3, if_true]
    constructor
    · intro h
      simp at h
    · rintro ⟨ha, -⟩
      omega
  · have h0 : p[0]? = some (p.getD 0 0) := getElem?_eq_some_getD (by omega)
    have h1 : p[1]? = some (p.getD 1 0) := getElem?_eq_some_getD (by omega)
    unfold validate_response
    rw [if_neg h3, h0, h1]
    dsimp only
    by_cases hb : p.length < p.getD 1 0 + 3
    · rw [if_pos hb]
      refine ⟨rfl, ?_⟩
      constructor
      · intro h
        simp at h
      · rintro ⟨-, hb', -⟩
        omega
    · rw [if_neg hb]
      have h2 : p[p.getD 1 0 + 2]? = some (p.getD (p.getD 1 0 + 2) 0) :=
        getElem?_eq_some_getD (by omega)
      rw [h2]
      dsimp only
      set eck := if p.getD 1 0 = 0 then p.getD 0 0
        else calculate_checksum (p.take (p.getD 1 0 + 2)) with heck
      by_cases hc : p.getD (p.getD 1 0 + 2) 0 = eck
      · rw [if_neg (not_not_intro hc)]
        rcases ec with _ | e
        · refine ⟨rfl, iff_of_true rfl ⟨by omega, by omega, hc, ?_⟩⟩
          rintro e ⟨⟩
        · dsimp only
          by_cases hcmd : p.getD 0 0 = e
          · rw [if_neg (not_not_intro hcmd)]
            refine ⟨rfl, iff_of_true rfl ⟨by omega, by omega, hc, ?_⟩⟩
            rintro e' he'
            cases he'
            exact hcmd
          · rw [if_pos hcmd]
            refine ⟨rfl, iff_of_false (by simp) ?_⟩
            rintro ⟨-, -, -, hcmd'⟩
            exact absurd (hcmd' e rfl) hcmd
      · rw [if_pos hc]
        refine ⟨rfl, iff_of_false (by simp) ?_⟩
        rintro ⟨-, -, hc', -⟩
        exact absurd hc' hc

/-- C4: `parse_response` re-runs validation without a command expectation;
exactly when validation succeeds it returns `(command, bytes[2 : 2+length])`,
otherwise the explicit invalid result; and dropping the trailing byte of any
built frame makes it return the invalid result. -/
theorem parse_response_spec (p : List Nat) (C : Nat) (P : List Nat) (_hC : C < 256)
    (_hP : ∀ b ∈ P, b < 256) (_hlen : P.length ≤ 255) :
    parse_response p =
      (if validate_response p none = some true
        then some (p.getD 0 0, (p.drop 2).take (p.getD 1 0)) else none) ∧
    parse_response ((build_packet C P).dropLast) = none := by
  constructor
  · rcases hv : validate_response p none with _ | b
    · simp [parse_response, hv]
    · cases b
      · simp [parse_response, hv]
      · rw [if_pos rfl]
        unfold parse_response
        rw [hv]
        dsimp only
        by_cases hl : p.getD 1 0 > 0
        · rw [if_pos hl]
        · rw [if_neg hl]
          have : p.getD 1 0 = 0 := by omega
          rw [this]
          simp
  · have hshape : (build_packet C P).dropLast = [C, P.length] ++ P := by
      rw [build_packet_eq]
      rw [show [C, P.length] ++ P ++ [if P.length = 0 then C
            else calculate_checksum ([C, P.length] ++ P)] =
          ([C, P.length] ++ P) ++ [if P.length = 0 then C
            else calculate_checksum ([C, P.length] ++ P)] from rfl]
      exact List.dropLast_concat
    rw [hshape]
    have hv : validate_response ([C, P.length] ++ P) none = some false := by
      cases P with
      | nil => simp [validate_response]
      | cons a t =>
        have hlen : ([C, (a :: t).length] ++ a :: t).length = t.length + 3 := by simp
        have h0 : ([C, (a :: t).length] ++ a :: t)[0]? = some C := by simp
        have h1 : ([C, (a :: t).length] ++ a :: t)[1]? = some (t.length + 1) := by simp
        unfold validate_response
        rw [if_neg (by omega), h0, h1]
        dsimp only
        rw [if_pos (by omega)]
    unfold parse_response
    rw [hv]

/-- Witness for C4 at `p = [0x3A, 0, 0x3A]`, `C = 0x3A`, `P = []`. -/
theorem parse_response_spec_witness :
    parse_response [0x3A, 0, 0x3A] =
      (if validate_response [0x3A, 0, 0x3A] none = some true
        then some (([0x3A, 0, 0x3A] : List Nat).getD 0 0,
          (([0x3A, 0, 0x3A] : List Nat).drop 2).take (([0x3A, 0, 0x3A] : List Nat).getD 1 0))
        else none) ∧
    parse_response ((build_packet 0x3A []).dropLast) = none :=
  parse_response_spec [0x3A, 0, 0x3A] 0x3A [] (by decide) (by decide) (by decide)

/-- Flip bit `j` of the byte at index `idx` of a byte sequence. -/
def flipBit (l : List Nat) (idx j : Nat) : List Nat :=
  l.set idx (l.getD idx 0 ^^^ (1 <<< j))

lemma xor_shift_ne (b j : Nat) : b ^^^ (1 <<< j) ≠ b := by
  intro h
  have h0 : b ^^^ (1 <<< j) = b ^^^ 0 := by
    rw [Nat.xor_zero]
    exact h
  have h1 : (1 : Nat) <<< j = 0 := Nat.xor_right_inj.mp h0
  rw [Nat.shiftLeft_eq, one_mul] at h1
  exact absurd h1 (Nat.pos_iff_ne_zero.mp (Nat.pow_pos (by norm_num)))

lemma xor_shift_lt (b j : Nat) (hb : b < 256) (hj : j < 8) : b ^^^ (1 <<< j) < 256 := by
  have h2 : (1 : Nat) <<< j = 2 ^ j := by rw [Nat.shiftLeft_eq, one_mul]
  have h3 : (2 : Nat) ^ j < 2 ^ 8 := Nat.pow_lt_pow_right (by norm_num) hj
  have hx : b < 2 ^ 8 := lt_of_lt_of_eq hb (by norm_num)
  have hy : (1 : Nat) <<< j < 2 ^ 8 := by
    rw [h2]
    exact h3
  exact lt_of_lt_of_eq (Nat.xor_lt_two_pow hx hy) (by norm_num)

lemma sum_set_getD (p : List Nat) (i x : Nat) (hi : i < p.length) :
    (p.set i x).sum + p.getD i 0 = p.sum + x := by
  induction p generalizing i with
  | nil => simp at hi
  | cons a t ih =>
    cases i with
    | zero => simp [List.sum_cons]; omega
    | succ n =>
      have hn : n < t.length := by simpa using hi
      rw [List.set_cons_succ, List.sum_cons, List.sum_cons, List.getD_cons_succ]
      have := ih n hn
      omega

lemma frame_getD_payload (c k : Nat) (p : List Nat) (i : Nat) (hi : i < p.length) :
    ([c, p.length] ++ p ++ [k]).getD (2 + i) 0 = p.getD i 0 := by
  show (c :: p.length :: (p ++ [k])).getD (2 + i) 0 = p.getD i 0
  rw [show 2 + i = (i + 1) + 1 from by omega, List.getD_cons_succ, List.getD_cons_succ]
  rw [List.getD_eq_getElem?_getD, List.getElem?_append, if_pos hi,
    ← List.getD_eq_getElem?_getD]

lemma frame_getD_checksum (c k : Nat) (p : List Nat) :
    ([c, p.length] ++ p ++ [k]).getD (p.length + 2) 0 = k := by
  have hl2 : ([c, p.length] ++ p).length = p.length + 2 := by simp
  rw [List.getD_eq_getElem?_getD, List.getElem?_append, hl2, if_neg (lt_irrefl _)]
  simp

lemma frame_set_payload (c k x : Nat) (p : List Nat) (i : Nat) (hi : i < p.length) :
    ([c, p.length] ++ p ++ [k]).set (2 + i) x = [c, p.length] ++ p.set i x ++ [k] := by
  rw [List.set_append, if_pos (by simp; omega)]
  show ((c :: p.length :: p).set (2 + i) x) ++ [k] = (c :: p.length :: p.set i x) ++ [k]
  rw [show 2 + i = (i + 1) + 1 from by omega, List.set_cons_succ, List.set_cons_succ]

lemma frame_set_checksum (c k x : Nat) (p : List Nat) :
    ([c, p.length] ++ p ++ [k]).set (p.length + 2) x = [c, p.length] ++ p ++ [x] := by
  have hl2 : ([c, p.length] ++ p).length = p.length + 2 := by simp
  rw [List.set_append, hl2, if_neg (lt_irrefl _), Nat.sub_self]
  rfl

lemma mod256_add_ne (A b b' : Nat) (hb : b < 256) (hb' : b' < 256) (hne : b' ≠ b) :
    (A + b') % 256 ≠ (A + b) % 256 := by
  intro h
  have hm : b' ≡ b [MOD 256] := Nat.ModEq.add_left_cancel' A h
  have : b' = b := by
    have := hm
    unfold Nat.ModEq at this
    rw [Nat.mod_eq_of_lt hb', Nat.mod_eq_of_lt hb] at this
    exact this
  exact hne this

/-- C5: error detection — for every command byte `C`, payload `P` of at
most 16 bytes, and bit position `j < 8`, flipping bit `j` of any payload
byte or of the checksum byte of `build_packet C P` makes
`validate_response` return `false` on the altered frame. -/
theorem single_bit_flip_detected (C : Nat) (P : List Nat) (j : Nat)
    (_hC : C < 256) (hP : ∀ b ∈ P, b < 256) (_hlen : P.length ≤ 16) (hj : j < 8) :
    (∀ i, i < P.length →
      validate_response (flipBit (build_packet C P) (2 + i) j) none = some false) ∧
    validate_response (flipBit (build_packet C P) (P.length + 2) j) none = some false := by
  rw [build_packet_eq]
  set k := if P.length = 0 then C else calculate_checksum ([C, P.length] ++ P) with hk
  constructor
  · intro i hi
    have hb : P.getD i 0 < 256 := by
      have hPi : P.getD i 0 = P[i] := by
        rw [List.getD_eq_getElem?_getD, List.getElem?_eq_getElem hi]
        rfl
      rw [hPi]
      exact hP _ (List.getElem_mem hi)
    have hflip : flipBit ([C, P.length] ++ P ++ [k]) (2 + i) j =
        [C, P.length] ++ P.set i (P.getD i 0 ^^^ (1 <<< j)) ++ [k] := by
      rw [flipBit, frame_getD_payload _ _ _ _ hi, frame_set_payload _ _ _ _ _ hi]
    rw [hflip]
    set b' := P.getD i 0 ^^^ (1 <<< j) with hb'
    have hlset : P.length = (P.set i b').length := (List.length_set _ _ _).symm
    rw [show ([C, P.length] ++ P.set i b' ++ [k] : List Nat) =
        [C, (P.set i b').length] ++ P.set i b' ++ [k] from by rw [← hlset]]
    rw [frame_eval]
    dsimp only [Option.elim]
    have hne0 : ¬ (P.set i b').length = 0 := by
      rw [← hlset]
      omega
    rw [Bool.and_true, if_neg hne0]
    have hkval : k = (C + P.length + P.sum) % 256 := by
      rw [hk, if_neg (by omega), checksum_arith]
    have hckval : calculate_checksum ([C, (P.set i b').length] ++ P.set i b') =
        (C + P.length + (P.set i b').sum) % 256 := by
      rw [checksum_arith, ← hlset]
    rw [hckval, hkval]
    have hsum : (P.set i b').sum + P.getD i 0 = P.sum + b' := sum_set_getD P i b' hi
    have hbne : b' ≠ P.getD i 0 := xor_shift_ne _ _
    have hblt : b' < 256 := xor_shift_lt _ _ hb hj
    have hmain : (C + P.length + P.sum) % 256 ≠
        (C + P.length + (P.set i b').sum) % 256 := by
      intro h
      have hm1 : P.sum ≡ (P.set i b').sum [MOD 256] :=
        Nat.ModEq.add_left_cancel' (C + P.length) h
      have hm2 : P.sum + P.getD i 0 ≡ (P.set i b').sum + P.getD i 0 [MOD 256] :=
        hm1.add_right _
      rw [hsum] at hm2
      have hm3 : P.getD i 0 ≡ b' [MOD 256] := Nat.ModEq.add_left_cancel' P.sum hm2
      have heq : P.getD i 0 = b' := by
        have h4 := hm3
        unfold Nat.ModEq at h4
        rw [Nat.mod_eq_of_lt hb, Nat.mod_eq_of_lt hblt] at h4
        exact h4
      exact hbne heq.symm
    rw [beq_eq_false_iff_ne.mpr hmain]
  · have hflip : flipBit ([C, P.length] ++ P ++ [k]) (P.length + 2) j =
        [C, P.length] ++ P ++ [k ^^^ (1 <<< j)] := by
      rw [flipBit, frame_getD_checksum, frame_set_checksum]
    rw [hflip, frame_eval]
    dsimp only [Option.elim]
    rw [Bool.and_true, ← hk]
    rw [beq_eq_false_iff_ne.mpr (xor_shift_ne k j)]

/-- Witness for C5 at `C = 0x4C`, `P = [1, 2, 3]`, payload index 1, bit 0. -/
theorem single_bit_flip_detected_witness :
    validate_response (flipBit (build_packet 0x4C [1, 2, 3]) (2 + 1) 0) none = some false ∧
    validate_response (flipBit (build_packet 0x4C [1, 2, 3]) ([1, 2, 3].length + 2) 0) none =
      some false :=
  ⟨(single_bit_flip_detected 0x4C [1, 2, 3] 0 (by decide) (by decide) (by decide)
      (by decide)).1 1 (by decide),
   (single_bit_flip_detected 0x4C [1, 2, 3] 0 (by decide) (by decide) (by decide)
      (by decide)).2⟩

/-- Per-attempt success test of the retry loop in communications.py: the
read was non-empty and the response validated against the sent command. -/
def okAttempt (cmd : Nat) (r : List Nat) : Bool :=
  (!r.isEmpty) && (validate_response r (some cmd) == some true)

/-- Retry loop of `Communications.send_command`: `n` is the number of
attempts left, `reads` the byte sequences the transport yields on the
successive reads (the transport is abstracted as this sequence; the head
is the current attempt's read).  The result carries the Python
`(success, response_data)` pair (payload in `Option`, since an invalid
parse would propagate Python's `None`) plus the number of attempts made. -/
def sendLoop (cmd : Nat) (reads : List (List Nat)) : Nat → Bool × Option (List Nat) × Nat
  | 0 => (false, some [], 0)
  | n + 1 =>
    let response := reads.headD []
    if response = [] then
      let r := sendLoop cmd reads.tail n
      (r.1, r.2.1, r.2.2 + 1)
    else if validate_response response (some cmd) ≠ some true then
      let r := sendLoop cmd reads.tail n
      (r.1, r.2.1, r.2.2 + 1)
    else
      (true, (parse_response response).map Prod.snd, 1)

/-- `Communications.send_command` from communications.py: builds the
packet for `(cmd, data)` and runs up to `retries + 1` attempts. -/
def send_command (cmd : Nat) (data : List Nat) (retries : Nat)
    (reads : List (List Nat)) : Bool × Option (List Nat) × Nat :=
  let _packet := build_packet cmd data
  sendLoop cmd reads (retries + 1)

lemma getD_tail (reads : List (List Nat)) (i : Nat) :
    reads.tail.getD i [] = reads.getD (i + 1) [] := by
  cases reads <;> simp [List.getD_cons_succ]

lemma getD_head (reads : List (List Nat)) : reads.headD [] = reads.getD 0 [] := by
  cases reads <;> simp

lemma sendLoop_spec (cmd : Nat) :
    ∀ (n : Nat) (reads : List (List Nat)),
      (sendLoop cmd reads n).2.2 ≤ n ∧
      (∀ i, i < n → (∀ j, j < i → okAttempt cmd (reads.getD j []) = false) →
        okAttempt cmd (reads.getD i []) = true →
        sendLoop cmd reads n =
          (true, (parse_response (reads.getD i [])).map Prod.snd, i + 1)) ∧
      ((∀ i, i < n → okAttempt cmd (reads.getD i []) = false) →
        sendLoop cmd reads n = (false, some [], n)) := by
  intro n
  induction n with
  | zero =>
    intro reads
    exact ⟨Nat.le_refl 0, fun i hi => absurd hi (by omega), fun _ => rfl⟩
  | succ n ih =>
    intro reads
    have hhd := getD_head reads
    by_cases h1 : reads.getD 0 [] = []
    · have h1' : reads.headD [] = [] := by
        rw [hhd]
        exact h1
      have hok0 : okAttempt cmd (reads.getD 0 []) = false := by
        simp only [okAttempt, h1]
        rfl
      have hred : sendLoop cmd reads (n + 1) =
          ((sendLoop cmd reads.tail n).1, (sendLoop cmd reads.tail n).2.1,
            (sendLoop cmd reads.tail n).2.2 + 1) := by
        rw [sendLoop, if_pos h1']
      obtain ⟨ihc, ihs, ihf⟩ := ih reads.tail
      refine ⟨?_, ?_, ?_⟩
      · rw [hred]
        show (sendLoop cmd reads.tail n).2.2 + 1 ≤ n + 1
        omega
      · intro i hi hprev hok
        cases i with
        | zero => rw [hok0] at hok; cases hok
        | succ i' =>
          have hres := ihs i' (by omega)
            (fun j hj => by rw [getD_tail]; exact hprev (j + 1) (by omega))
            (by rw [getD_tail]; exact hok)
          rw [hred, hres, getD_tail]
      · intro hall
        have hres := ihf (fun i hi => by rw [getD_tail]; exact hall (i + 1) (by omega))
        rw [hred, hres]
    · have h1' : ¬ reads.headD [] = [] := by
        rw [hhd]
        exact h1
      by_cases h2 : validate_response (reads.getD 0 []) (some cmd) = some true
      · have h2' : validate_response (reads.headD []) (some cmd) = some true := by
          rw [hhd]
          exact h2
        have hok0 : okAttempt cmd (reads.getD 0 []) = true := by
          have e1 : (reads.getD 0 []).isEmpty = false := by
            cases hr : reads.getD 0 [] with
            | nil => exact absurd hr h1
            | cons a t => rfl
          simp only [okAttempt, h2, e1]
          rfl
        have hred : sendLoop cmd reads (n + 1) =
            (true, (parse_response (reads.headD [])).map Prod.snd, 1) := by
          rw [sendLoop, if_neg h1', if_neg (not_not_intro h2')]
        refine ⟨?_, ?_, ?_⟩
        · rw [hred]
          show 1 ≤ n + 1
          omega
        · intro i hi hprev hok
          cases i with
          | zero =>
            rw [hred, hhd]
          | succ i' =>
            have := hprev 0 (by omega)
            rw [hok0] at this
            cases this
        · intro hall
          have := hall 0 (by omega)
          rw [hok0] at this
          cases this
      · have h2' : ¬ validate_response (reads.headD []) (some cmd) = some true := by
          rw [hhd]
          exact h2
        have hok0 : okAttempt cmd (reads.getD 0 []) = false := by
          simp only [okAttempt]
          rw [beq_eq_false_iff_ne.mpr h2, Bool.and_false]
        have hred : sendLoop cmd reads (n + 1) =
            ((sendLoop cmd reads.tail n).1, (sendLoop cmd reads.tail n).2.1,
              (sendLoop cmd reads.tail n).2.2 + 1) := by
          rw [sendLoop, if_neg h1', if_pos (by simpa using h2')]
        obtain ⟨ihc, ihs, ihf⟩ := ih reads.tail
        refine ⟨?_, ?_, ?_⟩
        · rw [hred]
          show (sendLoop cmd reads.tail n).2.2 + 1 ≤ n + 1
          omega
        · intro i hi hprev hok
          cases i with
          | zero => rw [hok0] at hok; cases hok
          | succ i' =>
            have hres := ihs i' (by omega)
              (fun j hj => by rw [getD_tail]; exact hprev (j + 1) (by omega))
              (by rw [getD_tail]; exact hok)
            rw [hred, hres, getD_tail]
        · intro hall
          have hres := ihf (fun i hi => by rw [getD_tail]; exact hall (i + 1) (by omega))
          rw [hred, hres]

/-- C6: retry policy — for every command, payload and transport behaviour
(the sequence of byte responses the successive reads yield),
`send_command` with retry bound `R` makes at most `R + 1` attempts; on the
first attempt whose response is non-empty and validates against the sent
command it returns success with that response's parsed payload after
exactly `i + 1` attempts; if every attempt fails it returns the failure
value `(false, b'')` after `R + 1` attempts. -/
theorem send_command_retry_policy (cmd : Nat) (data : List Nat) (retries : Nat)
    (reads : List (List Nat)) :
    (send_command cmd data retries reads).2.2 ≤ retries + 1 ∧
    (∀ i, i ≤ retries → (∀ j, j < i → okAttempt cmd (reads.getD j []) = false) →
      okAttempt cmd (reads.getD i []) = true →
      send_command cmd data retries reads =
        (true, (parse_response (reads.getD i [])).map Prod.snd, i + 1)) ∧
    ((∀ i, i ≤ retries → okAttempt cmd (reads.getD i []) = false) →
      send_command cmd data retries reads = (false, some [], retries + 1)) := by
  have h := sendLoop_spec cmd (retries + 1) reads
  exact ⟨h.1, fun i hi => h.2.1 i (by omega),
    fun hall => h.2.2 (fun i hi => hall i (by omega))⟩

/-- Witness for C6: with 2 retries, two garbage reads then a valid frame,
`send_command` returns success with the third response's payload after
exactly 3 attempts. -/
theorem send_command_retry_policy_witness :
    send_command 0x11 [] 2 [[9], [9], [0x11, 1, 7, 0x19]] = (true, some [7], 3) ∧
    okAttempt 0x11 [9] = false ∧ okAttempt 0x11 [0x11, 1, 7, 0x19] = true := by
  refine ⟨?_, by decide, by decide⟩
  have h := (send_command_retry_policy 0x11 [] 2 [[9], [9], [0x11, 1, 7, 0x19]]).2.1 2
    (by decide) (by decide) (by decide)
  rw [h]
  decide

/-- Decoded calibration value: a Python int (possibly negative after
signed reinterpretation) or a Python string (ASCII or hex rendering). -/
inductive Value where
  | int (i : Int)
  | str (s : String)
deriving DecidableEq, Repr

/-- Calibration schema entry from CALIBRATION_PARAMS in protocol.py.
`type`: 0 = bit, 1 = byte, 2 = multi-byte.  `format`: uo/so/h/a.
The human-readable description strings are omitted; the decoder never
reads them. -/
structure Param where
  offset : Nat
  type : Nat
  bit : Option Nat := none
  length : Option Nat := none
  format : String
  min : Option Int := none
  max : Option Int := none
  readonly : Bool := false
deriving DecidableEq, Repr

/-- The calibration parameter table of protocol.py, in source order. -/
def CALIBRATION_PARAMS : List (String × Param) := [
  ("module_name", { offset := 0x00, type := 2, length := some 8, format := "a", readonly := true }),
  ("user_name", { offset := 0x08, type := 2, length := some 4, format := "a", readonly := true }),
  ("serial_number", { offset := 0x0C, type := 2, length := some 4, format := "h", readonly := true }),
  ("software_version", { offset := 0x10, type := 2, length := some 4, format := "h", readonly := true }),
  ("startup_hpedal", { offset := 0x14, type := 0, bit := some 0, format := "uo", min := some 0, max := some 1 }),
  ("brake_hpedal", { offset := 0x14, type := 0, bit := some 1, format := "uo", min := some 0, max := some 1 }),
  ("ntl_hpedal", { offset := 0x14, type := 0, bit := some 2, format := "uo", min := some 0, max := some 1 }),
  ("foot_switch", { offset := 0x15, type := 0, bit := some 0, format := "uo", min := some 0, max := some 1 }),
  ("sw_level", { offset := 0x15, type := 0, bit := some 1, format := "uo", min := some 0, max := some 1 }),
  ("controller_type", { offset := 0x15, type := 0, bit := some 3, format := "uo", min := some 0, max := some 1 }),
  ("change_dir", { offset := 0x15, type := 0, bit := some 7, format := "uo", min := some 0, max := some 1 }),
  ("startup_wait_time", { offset := 0x16, type := 1, format := "uo", min := some 0, max := some 20 }),
  ("controller_voltage", { offset := 0x17, type := 2, length := some 2, format := "uo", min := some 0, max := some 612, readonly := true }),
  ("low_voltage", { offset := 0x19, type := 2, length := some 2, format := "uo", min := some 0, max := some 1000 }),
  ("over_voltage", { offset := 0x1B, type := 2, length := some 2, format := "uo", min := some 0, max := some 1000 }),
  ("current_percent", { offset := 0x25, type := 1, format := "uo", min := some 20, max := some 100 }),
  ("battery_current_limit", { offset := 0x26, type := 1, format := "uo", min := some 20, max := some 100 }),
  ("tps_low", { offset := 0x5C, type := 1, format := "uo", min := some 0, max := some 20 }),
  ("tps_high", { offset := 0x5D, type := 1, format := "uo", min := some 80, max := some 100 }),
  ("tps_type", { offset := 0x5F, type := 1, format := "uo", min := some 0, max := some 3 }),
  ("tps_dead_low", { offset := 0x60, type := 1, format := "uo", min := some 0, max := some 80 }),
  ("tps_dead_high", { offset := 0x61, type := 1, format := "uo", min := some 120, max := some 200 }),
  ("max_output_freq", { offset := 0x69, type := 2, length := some 2, format := "uo", min := some 50, max := some 1000 }),
  ("max_speed", { offset := 0x6B, type := 2, length := some 2, format := "uo", min := some 0, max := some 60000 }),
  ("max_forward_speed", { offset := 0x6D, type := 1, format := "uo", min := some 30, max := some 100 }),
  ("max_reverse_speed", { offset := 0x6E, type := 1, format := "uo", min := some 20, max := some 100 }),
  ("regen_brake_percent", { offset := 0xE6, type := 1, format := "uo", min := some 0, max := some 50 }),
  ("neutral_brake_percent", { offset := 0xE7, type := 1, format := "uo", min := some 0, max := some 50 }),
  ("accel_time", { offset := 0xEF, type := 1, format := "uo", min := some 0, max := some 250 }),
  ("accel_release_time", { offset := 0xF0, type := 1, format := "uo", min := some 0, max := some 250 }),
  ("brake_time", { offset := 0xF1, type := 1, format := "uo", min := some 0, max := some 250 }),
  ("brake_release_time", { offset := 0xF2, type := 1, format := "uo", min := some 0, max := some 250 }),
  ("motor_poles", { offset := 0x10C, type := 1, format := "uo", min := some 2, max := some 32 }),
  ("speed_sensor_type", { offset := 0x10D, type := 1, format := "uo", min := some 0, max := some 4 }),
  ("motor_temp_sensor", { offset := 0x13E, type := 1, format := "uo", min := some 0, max := some 1 }),
  ("high_temp_cutoff", { offset := 0x13F, type := 1, format := "uo", min := some 60, max := some 170 }),
  ("high_temp_resume", { offset := 0x140, type := 1, format := "uo", min := some 60, max := some 170 })]

/-- Python dict lookup on the schema (keys are unique). -/
def lookupParam (name : String) : Option Param :=
  (CALIBRATION_PARAMS.find? (fun e => e.1 == name)).map Prod.snd

/-- Python `bytes.decode("ascii", errors="ignore").rstrip(chr 0)`:
bytes outside ASCII are dropped, the rest become characters, and trailing
NUL characters are stripped. -/
def asciiDecode (bs : List Nat) : String :=
  String.mk
    ((((bs.filter (fun b => decide (b < 128))).map Char.ofNat).reverse.dropWhile
      (fun c => c == Char.ofNat 0)).reverse)

/-- Lowercase hex digit of a value below 16 (0-9 then a-f). -/
def hexDigit (n : Nat) : Char :=
  if n < 10 then Char.ofNat (48 + n) else Char.ofNat (87 + n)

/-- Python `bytes.hex()`: two lowercase hex digits per byte. -/
def hexStr (bs : List Nat) : String :=
  String.mk ((bs.map (fun b => [hexDigit (b / 16), hexDigit (b % 16)])).flatten)

/-- The big-endian accumulation loop of the multi-byte branch of
`Parser.get_config_value`: reads `n` bytes starting at `pos`, folding
`value = (value << 8) | byte`.  Indexing is in `Option` — `none` models a
Python IndexError. -/
def beLoop (cfg : List Nat) : Nat → Nat → Nat → Option Nat
  | _, 0, value => some value
  | pos, n + 1, value =>
    match cfg[pos]? with
    | some b => beLoop cfg (pos + 1) n ((value <<< 8) ||| b)
    | none => none

/-- Big-endian unsigned integer value of a byte string, most significant
byte first (the specification-level reading of the loop above). -/
def beNat (bs : List Nat) : Nat :=
  bs.foldl (fun a b => 256 * a + b) 0

/-- `Parser.get_config_value` from pykellymotion/parser.py.  The outer
`Option` models exception escape (`none` = uncaught IndexError, proved
impossible below); the inner `Option` is the Python return value
(`none` = Python `None`). -/
def get_config_value (cfg : List Nat) (name : String) : Option (Option Value) :=
  if cfg = [] then some none
  else
    match lookupParam name with
    | none => some none
    | some p =>
      if p.offset ≥ cfg.length then some none
      else if p.type = 0 then
        match cfg[p.offset]? with
        | some byteVal =>
          some (some (Value.int (((byteVal >>> p.bit.getD 0) &&& 1 : Nat) : Int)))
        | none => none
      else if p.type = 1 then
        match cfg[p.offset]? with
        | some val =>
          if p.format = "so" then
            some (some (Value.int (if val < 128 then (val : Int) else (val : Int) - 256)))
          else some (some (Value.int (val : Int)))
        | none => none
      else if p.type = 2 then
        let len := p.length.getD 2
        if p.offset + len > cfg.length then some none
        else if p.format = "a" then
          some (some (Value.str (asciiDecode ((cfg.drop p.offset).take len))))
        else if p.format = "h" then
          some (some (Value.str (hexStr ((cfg.drop p.offset).take len))))
        else
          match beLoop cfg p.offset len 0 with
          | some v => some (some (Value.int (v : Int)))
          | none => none
      else some none

/-- `Parser.get_all_config`: decode every schema entry in order, keeping
only the successfully decoded ones.  The `getD none` collapses the
exception layer, which `decoder_graceful_degradation` proves is never
`none`. -/
def get_all_config (cfg : List Nat) : List (String × Value) :=
  CALIBRATION_PARAMS.filterMap (fun e =>
    ((get_config_value cfg e.1).getD none).map (fun v => (e.1, v)))

example : get_config_value [0x41, 0x42] "module_name" = some none := by decide

example : get_config_value (List.replicate 0x15 0 ++ [0b10000011]) "foot_switch" =
    some (some (Value.int 1)) := by decide

example : get_config_value [77, 79, 84, 79, 82, 0, 0, 0] "module_name" =
    some (some (Value.str "MOTOR")) := by decide

example : get_config_value (List.replicate 0x25 0 ++ [255]) "current_percent" =
    some (some (Value.int 255)) := by decide

lemma beLoop_isSome (cfg : List Nat) :
    ∀ (n pos acc : Nat), pos + n ≤ cfg.length → (beLoop cfg pos n acc).isSome := by
  intro n
  induction n with
  | zero =>
    intro pos acc h
    rfl
  | succ n ih =>
    intro pos acc h
    have hp : pos < cfg.length := by omega
    have hstep : beLoop cfg pos (n + 1) acc =
        (match cfg[pos]? with
          | some b => beLoop cfg (pos + 1) n ((acc <<< 8) ||| b)
          | none => none) := rfl
    rw [hstep, List.getElem?_eq_getElem hp]
    exact ih (pos + 1) _ (by omega)

lemma beLoop_eq (cfg : List Nat) (hbytes : ∀ b ∈ cfg, b < 256) :
    ∀ (n pos acc : Nat), pos + n ≤ cfg.length →
      beLoop cfg pos n acc =
        some (((cfg.drop pos).take n).foldl (fun a b => 256 * a + b) acc) := by
  intro n
  induction n with
  | zero =>
    intro pos acc h
    simp [beLoop]
  | succ n ih =>
    intro pos acc h
    have hp : pos < cfg.length := by omega
    have hstep : beLoop cfg pos (n + 1) acc =
        (match cfg[pos]? with
          | some b => beLoop cfg (pos + 1) n ((acc <<< 8) ||| b)
          | none => none) := rfl
    rw [hstep, List.getElem?_eq_getElem hp]
    have hor : (acc <<< 8) ||| cfg[pos] = 256 * acc + cfg[pos] := by
      have hb8 : cfg[pos] < 2 ^ 8 := by
        have := hbytes _ (List.getElem_mem hp)
        norm_num
        exact this
      calc (acc <<< 8) ||| cfg[pos]
          = 2 ^ 8 * acc ||| cfg[pos] := by rw [Nat.shiftLeft_eq, Nat.mul_comm]
        _ = 2 ^ 8 * acc + cfg[pos] := (Nat.mul_add_lt_is_or hb8 acc).symm
        _ = 256 * acc + cfg[pos] := by norm_num
    have hdrop : cfg.drop pos = cfg[pos] :: cfg.drop (pos + 1) :=
      List.drop_eq_getElem_cons hp
    show beLoop cfg (pos + 1) n ((acc <<< 8) ||| cfg[pos]) =
      some (((cfg.drop pos).take (n + 1)).foldl (fun a b => 256 * a + b) acc)
    rw [ih (pos + 1) _ (by omega), hdrop, List.take_succ_cons, List.foldl_cons, hor]

lemma ne_nil_of_lt_length {cfg : List Nat} {k : Nat} (h : k < cfg.length) : cfg ≠ [] := by
  intro hc
  rw [hc] at h
  simp at h

/-- C7: bit-field decoding — for every calibration buffer and every schema
entry of kind bit whose offset is inside the buffer, the decoded value is
`(buffer[offset] >> bit_index) & 1`, which is always at most 1. -/
theorem bit_field_decoding (cfg : List Nat) (name : String) (p : Param)
    (hlook : lookupParam name = some p) (htype : p.type = 0)
    (hoff : p.offset < cfg.length) :
    get_config_value cfg name =
      some (some (Value.int (((cfg.getD p.offset 0 >>> p.bit.getD 0) &&& 1 : Nat) : Int))) ∧
    ((cfg.getD p.offset 0 >>> p.bit.getD 0) &&& 1 : Nat) ≤ 1 := by
  constructor
  · have hne := ne_nil_of_lt_length hoff
    rw [get_config_value, if_neg hne, hlook]
    dsimp only
    rw [if_neg (by omega : ¬ p.offset ≥ cfg.length), if_pos htype,
      getElem?_eq_some_getD hoff]
  · exact Nat.and_le_right

/-- Witness for C7: a buffer whose byte at offset 0x15 is 0b10000011
decodes foot_switch (bit 0), sw_level (bit 1) and change_dir (bit 7) to 1
and controller_type (bit 3) to 0. -/
theorem bit_field_decoding_witness :
    get_config_value (List.replicate 0x15 0 ++ [0b10000011]) "foot_switch" =
      some (some (Value.int 1)) ∧
    get_config_value (List.replicate 0x15 0 ++ [0b10000011]) "sw_level" =
      some (some (Value.int 1)) ∧
    get_config_value (List.replicate 0x15 0 ++ [0b10000011]) "change_dir" =
      some (some (Value.int 1)) ∧
    get_config_value (List.replicate 0x15 0 ++ [0b10000011]) "controller_type" =
      some (some (Value.int 0)) := by
  refine ⟨?_, ?_, ?_, ?_⟩
  · rw [(bit_field_decoding (List.replicate 0x15 0 ++ [0b10000011]) "foot_switch" _
      rfl rfl (by decide)).1]
    decide
  · rw [(bit_field_decoding (List.replicate 0x15 0 ++ [0b10000011]) "sw_level" _
      rfl rfl (by decide)).1]
    decide
  · rw [(bit_field_decoding (List.replicate 0x15 0 ++ [0b10000011]) "change_dir" _
      rfl rfl (by decide)).1]
    decide
  · rw [(bit_field_decoding (List.replicate 0x15 0 ++ [0b10000011]) "controller_type" _
      rfl rfl (by decide)).1]
    decide

/-- C8: multibyte decoding — for every buffer of bytes and every in-bounds
schema entry of kind multi-byte with length `L`, ascii entries decode to
the `L` bytes as text with trailing NULs stripped, hex entries to the
lowercase hex rendering, and any other representation to the big-endian
unsigned integer value of the `L` bytes. -/
theorem multibyte_decoding (cfg : List Nat) (name : String) (p : Param)
    (hlook : lookupParam name = some p) (htype : p.type = 2)
    (hbytes : ∀ b ∈ cfg, b < 256) (hoff : p.offset < cfg.length)
    (hlen : p.offset + p.length.getD 2 ≤ cfg.length) :
    get_config_value cfg name =
      some (some (
        if p.format = "a" then
          Value.str (asciiDecode ((cfg.drop p.offset).take (p.length.getD 2)))
        else if p.format = "h" then
          Value.str (hexStr ((cfg.drop p.offset).take (p.length.getD 2)))
        else Value.int ((beNat ((cfg.drop p.offset).take (p.length.getD 2)) : Nat) : Int))) := by
  have hne := ne_nil_of_lt_length hoff
  rw [get_config_value, if_neg hne, hlook]
  dsimp only
  rw [if_neg (by omega : ¬ p.offset ≥ cfg.length), if_neg (by omega : ¬ p.type = 0),
    if_neg (by omega : ¬ p.type = 1), if_pos htype]
  rw [if_neg (by omega : ¬ p.offset + p.length.getD 2 > cfg.length)]
  by_cases hfa : p.format = "a"
  · rw [if_pos hfa, if_pos hfa]
  · rw [if_neg hfa, if_neg hfa]
    by_cases hfh : p.format = "h"
    · rw [if_pos hfh, if_pos hfh]
    · rw [if_neg hfh, if_neg hfh, beLoop_eq cfg hbytes _ _ _ hlen]
      rfl

/-- Witness for C8: an 8-byte ASCII field containing MOTOR followed by
three NUL bytes decodes to the 5-character string MOTOR. -/
theorem multibyte_decoding_witness :
    get_config_value [77, 79, 84, 79, 82, 0, 0, 0] "module_name" =
      some (some (Value.str "MOTOR")) := by
  rw [multibyte_decoding [77, 79, 84, 79, 82, 0, 0, 0] "module_name" _
    rfl rfl (by decide) (by decide) (by decide)]
  decide

/-- C9: graceful degradation — decoding returns the absent value (never an
escaped exception) whenever the entry's offset, or offset plus length for
multi-byte entries, falls outside the buffer; decoding never lets an
exception escape on any buffer and parameter name; decoding all
parameters of an empty buffer yields an empty mapping; and every entry of
the full decode is a successfully decoded value. -/
theorem decoder_graceful_degradation :
    (∀ (cfg : List Nat) (name : String) (p : Param), lookupParam name = some p →
      cfg.length ≤ p.offset → get_config_value cfg name = some none) ∧
    (∀ (cfg : List Nat) (name : String) (p : Param), lookupParam name = some p →
      p.type = 2 → cfg.length < p.offset + p.length.getD 2 →
      get_config_value cfg name = some none) ∧
    (∀ (cfg : List Nat) (name : String), (get_config_value cfg name).isSome) ∧
    get_all_config [] = [] ∧
    (∀ (cfg : List Nat) (name : String) (v : Value),
      (name, v) ∈ get_all_config cfg → get_config_value cfg name = some (some v)) := by
  refine ⟨?_, ?_, ?_, by decide, ?_⟩
  · intro cfg name p hlook hle
    by_cases hnil : cfg = []
    · rw [get_config_value, if_pos hnil]
    · rw [get_config_value, if_neg hnil, hlook]
      dsimp only
      rw [if_pos (show p.offset ≥ cfg.length from hle)]
  · intro cfg name p hlook htype hlt
    by_cases hnil : cfg = []
    · rw [get_config_value, if_pos hnil]
    · rw [get_config_value, if_neg hnil, hlook]
      dsimp only
      by_cases hoff : p.offset ≥ cfg.length
      · rw [if_pos hoff]
      · rw [if_neg hoff, if_neg (by omega : ¬ p.type = 0),
          if_neg (by omega : ¬ p.type = 1), if_pos htype]
        rw [if_pos (by omega : p.offset + p.length.getD 2 > cfg.length)]
  · intro cfg name
    by_cases hnil : cfg = []
    · rw [get_config_value, if_pos hnil]
      rfl
    · rw [get_config_value, if_neg hnil]
      cases hl : lookupParam name with
      | none => rfl
      | some p =>
        dsimp only
        by_cases hoff : p.offset ≥ cfg.length
        · rw [if_pos hoff]
          rfl
        · rw [if_neg hoff]
          by_cases ht0 : p.type = 0
          · rw [if_pos ht0, getElem?_eq_some_getD (by omega)]
            rfl
          · rw [if_neg ht0]
            by_cases ht1 : p.type = 1
            · rw [if_pos ht1, getElem?_eq_some_getD (by omega)]
              dsimp only
              split <;> rfl
            · rw [if_neg ht1]
              by_cases ht2 : p.type = 2
              · rw [if_pos ht2]
                by_cases hb : p.offset + p.length.getD 2 > cfg.length
                · rw [if_pos hb]
                  rfl
                · rw [if_neg hb]
                  by_cases hfa : p.format = "a"
                  · rw [if_pos hfa]
                    rfl
                  · rw [if_neg hfa]
                    by_cases hfh : p.format = "h"
                    · rw [if_pos hfh]
                      rfl
                    · rw [if_neg hfh]
                      have hs := beLoop_isSome cfg (p.length.getD 2) p.offset 0 (by omega)
                      cases hbe : beLoop cfg p.offset (p.length.getD 2) 0 with
                      | none =>
                        rw [hbe] at hs
                        cases hs
                      | some v => rfl
              · rw [if_neg ht2]
                rfl
  · intro cfg name v hmem
    rw [get_all_config] at hmem
    obtain ⟨e, hel, he⟩ := List.mem_filterMap.mp hmem
    obtain ⟨a, ha, heq⟩ := Option.map_eq_some'.mp he
    injection heq with h1 h2
    subst h1
    subst h2
    cases hg : get_config_value cfg e.1 with
    | none =>
      rw [hg] at ha
      simp at ha
    | some w =>
      rw [hg] at ha
      simp at ha
      rw [ha]

/-- Witness for C9: a too-short buffer gives the absent value for a byte
entry past its end and for a multi-byte entry overrunning it; decoding an
unknown name on the empty buffer does not raise; the full decode of the
empty buffer is empty; and a membership of a full decode is a successful
decode. -/
theorem decoder_graceful_degradation_witness :
    get_config_value [0, 0] "motor_poles" = some none ∧
    get_config_value [1, 2, 3] "module_name" = some none ∧
    (get_config_value [] "anything").isSome ∧
    get_all_config [] = [] ∧
    get_config_value (List.replicate 8 0) "module_name" = some (some (Value.str "")) := by
  have h := decoder_graceful_degradation
  exact ⟨h.1 [0, 0] "motor_poles" _ rfl (by decide),
    h.2.1 [1, 2, 3] "module_name" _ rfl rfl (by decide),
    h.2.2.1 [] "anything",
    h.2.2.2.1,
    h.2.2.2.2 (List.replicate 8 0) "module_name" (Value.str "") (by decide)⟩

/-- C10: no range enforcement — for every schema entry (bit, unsigned
byte, or unsigned multi-byte, so in particular every entry carrying
min/max bounds) and every buffer in which the field is in-bounds, the
decoder returns the raw decoded field value, computed without consulting
the entry's min/max bounds; current_percent declares 20..100 and
controller_voltage (a multi-byte entry) declares a maximum of 612, yet
the decode formulas below pass the raw field through — the witness shows
the out-of-range decodes 255 and 65535. -/
theorem no_range_enforcement (cfg : List Nat) (name : String) (p : Param)
    (hlook : lookupParam name = some p) (hoff : p.offset < cfg.length) :
    (p.type = 0 →
      get_config_value cfg name =
        some (some (Value.int (((cfg.getD p.offset 0 >>> p.bit.getD 0) &&& 1 : Nat) : Int)))) ∧
    (p.type = 1 → p.format ≠ "so" →
      get_config_value cfg name =
        some (some (Value.int ((cfg.getD p.offset 0 : Nat) : Int)))) ∧
    (p.type = 2 → p.format ≠ "a" → p.format ≠ "h" → (∀ b ∈ cfg, b < 256) →
      p.offset + p.length.getD 2 ≤ cfg.length →
      get_config_value cfg name =
        some (some (Value.int
          ((beNat ((cfg.drop p.offset).take (p.length.getD 2)) : Nat) : Int)))) ∧
    (lookupParam "current_percent").map Param.min = some (some 20) ∧
    (lookupParam "current_percent").map Param.max = some (some 100) ∧
    (lookupParam "controller_voltage").map Param.max = some (some 612) := by
  have hne := ne_nil_of_lt_length hoff
  refine ⟨?_, ?_, ?_, by decide, by decide, by decide⟩
  · intro htype
    rw [get_config_value, if_neg hne, hlook]
    dsimp only
    rw [if_neg (by omega : ¬ p.offset ≥ cfg.length), if_pos htype,
      getElem?_eq_some_getD hoff]
  · intro htype hfmt
    rw [get_config_value, if_neg hne, hlook]
    dsimp only
    rw [if_neg (by omega : ¬ p.offset ≥ cfg.length), if_neg (by omega : ¬ p.type = 0),
      if_pos htype, getElem?_eq_some_getD hoff]
    dsimp only
    rw [if_neg hfmt]
  · intro htype hfa hfh hbytes hlen
    rw [get_config_value, if_neg hne, hlook]
    dsimp only
    rw [if_neg (by omega : ¬ p.offset ≥ cfg.length), if_neg (by omega : ¬ p.type = 0),
      if_neg (by omega : ¬ p.type = 1), if_pos htype]
    rw [if_neg (by omega : ¬ p.offset + p.length.getD 2 > cfg.length),
      if_neg hfa, if_neg hfh, beLoop_eq cfg hbytes _ _ _ hlen]
    rfl

/-- Witness for C10: byte 255 at the offset of current_percent decodes to
255, above the declared maximum of 100; and bytes 0xFF 0xFF at the offset
of the multi-byte entry controller_voltage decode to 65535, far above its
declared maximum of 612. -/
theorem no_range_enforcement_witness :
    (get_config_value (List.replicate 0x25 0 ++ [255]) "current_percent" =
      some (some (Value.int 255)) ∧ ¬ ((255 : Int) ≤ 100)) ∧
    (get_config_value (List.replicate 0x17 0 ++ [0xFF, 0xFF]) "controller_voltage" =
      some (some (Value.int 65535)) ∧ ¬ ((65535 : Int) ≤ 612)) := by
  refine ⟨⟨?_, by decide⟩, ⟨?_, by decide⟩⟩
  · rw [(no_range_enforcement (List.replicate 0x25 0 ++ [255]) "current_percent" _
      rfl (by decide)).2.1 rfl (by decide)]
    decide
  · rw [(no_range_enforcement (List.replicate 0x17 0 ++ [0xFF, 0xFF]) "controller_voltage" _
      rfl (by decide)).2.2.1 rfl (by decide) (by decide) (by decide) (by decide)]
    decide

example : build_packet 0x4C [1, 2, 3] = [0x4C, 3, 1, 2, 3, (0x4C + 3 + 1 + 2 + 3) % 256] := by
  decide

example : validate_response (build_packet 0x4C [1, 2, 3]) (some 0x4C) = some true := by decide

example : validate_response [0x4C, 3, 1, 2] none = some false := by decide

example : parse_response [0x4C, 3, 1, 2, 3, 0x55] = some (0x4C, [1, 2, 3]) := by decide

example : parse_response [0x4C, 3, 1, 2, 3] = none := by decide

end PyKelly
